import Mathlib

/-!
Shallow embedding of the constrained-dynamics solver core of the `rapier`
repository, restricted to the functions the verified claims are about:

* `src/utils.rs` — `inv`, `SdpMatrix3::inverse`, `IndexMut2::index_mut2`,
  the scalar (2-D) `WAngularInertia` impl;
* `src/dynamics/solver/joint_constraint/joint_constraint.rs` —
  `AnyJointVelocityConstraint::from_joint` (jacobian growth) and
  `from_joint_ground` (ground-path handle/frame flipping);
* `src/dynamics/joint/multibody_joint/unit_multibody_joint.rs` —
  `unit_joint_limit_constraint`, `unit_joint_motor_constraint`;
* `src/dynamics/solver/parallel_island_solver.rs` — the `concurrent_loop`
  batch-claiming pattern (modelled sequentially) and the force-integration /
  writeback body loops of `ParallelIslandSolver::init_and_solve`.

Real-valued quantities are embedded as rationals (`ℚ`); the solver performs
no operation outside `+ - * / max min` comparisons, so the embedding is exact.
Angular quantities use the scalar (2-D) instantiation whose trait impl
(`WAngularInertia for N`) is itself part of `src/utils.rs`: the inverse
inertia is a scalar, `transform_vector` is multiplication and `squared` is
squaring.  Isometries are only ever composed and moved around, never
inspected, so they are kept as an arbitrary type parameter `Iso` together
with their composition law.
-/

/-- `SPATIAL_DIM` of the 3-D build (`src/math.rs`): 6 degrees of freedom. -/
def SPATIAL_DIM : ℕ := 6

/-- `crate::INVALID_USIZE`, the sentinel slot index (`usize::MAX`). -/
def INVALID_USIZE : ℕ := 2 ^ 64 - 1

/-- `Real::MAX`, the largest finite value of the scalar type, used by the
code as a stand-in for an unbounded impulse bound. -/
def RealMAX : ℚ := 2 ^ 128

/-- `utils::inv`: flush-to-zero scalar inverse (`src/utils.rs:22`). -/
def inv (val : ℚ) : ℚ :=
  if val = 0 then 0 else 1 / val

/-- Scalar `WAngularInertia::transform_vector` (`src/utils.rs:485`):
`pt * self`. -/
def scalarTransformVector (self pt : ℚ) : ℚ := pt * self

/-- Scalar `WAngularInertia::squared` (`src/utils.rs:489`): `self * self`. -/
def scalarSquared (self : ℚ) : ℚ := self * self

/-- `parry::utils::SdpMatrix3`: a symmetric 3×3 matrix stored by its upper
triangle, as used by `src/utils.rs`. -/
structure SdpMatrix3 where
  m11 : ℚ
  m12 : ℚ
  m13 : ℚ
  m22 : ℚ
  m23 : ℚ
  m33 : ℚ
deriving DecidableEq, Repr

/-- The zero `SdpMatrix3` (`SdpMatrix3::zero`). -/
def SdpMatrix3.zero : SdpMatrix3 := ⟨0, 0, 0, 0, 0, 0⟩

/-- The determinant computed inside `SdpMatrix3::inverse`
(`src/utils.rs:507-513`), via the three minors. -/
def SdpMatrix3.det (a : SdpMatrix3) : ℚ :=
  let minor_m12_m23 := a.m22 * a.m33 - a.m23 * a.m23
  let minor_m11_m23 := a.m12 * a.m33 - a.m13 * a.m23
  let minor_m11_m22 := a.m12 * a.m23 - a.m13 * a.m22
  a.m11 * minor_m12_m23 - a.m12 * minor_m11_m23 + a.m13 * minor_m11_m22

/-- `SdpMatrix3::inverse` for the scalar `Real` instantiation
(`src/utils.rs:507-527`): the zero matrix when the determinant vanishes,
the adjugate divided by the determinant otherwise. -/
def SdpMatrix3.inverse (a : SdpMatrix3) : SdpMatrix3 :=
  let minor_m12_m23 := a.m22 * a.m33 - a.m23 * a.m23
  let minor_m11_m23 := a.m12 * a.m33 - a.m13 * a.m23
  let minor_m11_m22 := a.m12 * a.m23 - a.m13 * a.m22
  let determinant :=
    a.m11 * minor_m12_m23 - a.m12 * minor_m11_m23 + a.m13 * minor_m11_m22
  if determinant = 0 then SdpMatrix3.zero
  else
    { m11 := minor_m12_m23 / determinant
      m12 := -minor_m11_m23 / determinant
      m13 := minor_m11_m22 / determinant
      m22 := (a.m11 * a.m33 - a.m13 * a.m13) / determinant
      m23 := (a.m13 * a.m12 - a.m23 * a.m11) / determinant
      m33 := (a.m11 * a.m22 - a.m12 * a.m12) / determinant }

/-- A general (not necessarily symmetric) 3×3 matrix, used to state that the
symmetric inverse really is a two-sided matrix inverse. -/
structure M3 where
  e11 : ℚ
  e12 : ℚ
  e13 : ℚ
  e21 : ℚ
  e22 : ℚ
  e23 : ℚ
  e31 : ℚ
  e32 : ℚ
  e33 : ℚ
deriving DecidableEq, Repr

/-- `SdpMatrix3::into_matrix` (`src/utils.rs:552-558`). -/
def SdpMatrix3.toM3 (a : SdpMatrix3) : M3 :=
  ⟨a.m11, a.m12, a.m13, a.m12, a.m22, a.m23, a.m13, a.m23, a.m33⟩

/-- Ordinary 3×3 matrix product. -/
def m3Mul (a b : M3) : M3 :=
  ⟨a.e11 * b.e11 + a.e12 * b.e21 + a.e13 * b.e31,
   a.e11 * b.e12 + a.e12 * b.e22 + a.e13 * b.e32,
   a.e11 * b.e13 + a.e12 * b.e23 + a.e13 * b.e33,
   a.e21 * b.e11 + a.e22 * b.e21 + a.e23 * b.e31,
   a.e21 * b.e12 + a.e22 * b.e22 + a.e23 * b.e32,
   a.e21 * b.e13 + a.e22 * b.e23 + a.e23 * b.e33,
   a.e31 * b.e11 + a.e32 * b.e21 + a.e33 * b.e31,
   a.e31 * b.e12 + a.e32 * b.e22 + a.e33 * b.e32,
   a.e31 * b.e13 + a.e32 * b.e23 + a.e33 * b.e33⟩

/-- The 3×3 identity matrix. -/
def m3One : M3 := ⟨1, 0, 0, 0, 1, 0, 0, 0, 1⟩

/-- Modelled from the spec (§4.4): one projected Gauss–Seidel impulse update
`λ_new = clamp(λ + m_eff · (rhs − dv), lo, hi)`; the solver loop itself
(`joint_generic_velocity_constraint.rs`) is not part of the provided sources. -/
def pgsUpdate (impulse inv_lhs rhs dvel lo hi : ℚ) : ℚ :=
  min (max (impulse + inv_lhs * (rhs - dvel)) lo) hi

/-! ### Rigid-body data and the ground-path joint assembler (`from_joint_ground`) -/

/-- `RigidBodyType` (`src/dynamics/rigid_body_components.rs`, via its use in
`joint_constraint.rs`). -/
inductive RigidBodyType where
  | Dynamic
  | Static
  | KinematicPositionBased
  | KinematicVelocityBased
deriving DecidableEq, Repr

/-- `RigidBodyType::is_dynamic`. -/
def RigidBodyType.is_dynamic : RigidBodyType → Bool
  | .Dynamic => true
  | _ => false

/-- `JointData`, restricted to the fields read by the assembler paths under
verification: the two local anchor frames and the `locked_axes` bitmask. -/
structure JointData (Iso : Type) where
  local_frame1 : Iso
  local_frame2 : Iso
  locked_axes : ℕ

/-- `ImpulseJoint` (`src/dynamics/joint/impulse_joint/impulse_joint.rs`):
two body handles (embedded as indices into the body store), the joint data
and the cached impulses used for warm starting. -/
structure ImpulseJoint (Iso : Type) where
  body1 : ℕ
  body2 : ℕ
  data : JointData Iso
  impulses : List ℚ

/-- The per-body components read by `from_joint_ground`, gathered into one
record: position isometry, velocity, effective inverse mass, the square root
of the world inverse inertia (scalar, 2-D instantiation), world COM and the
`active_set_offset` of `RigidBodyIds`. -/
structure RigidBodyRec (Iso : Type) where
  position : Iso
  linvel : ℚ × ℚ
  angvel : ℚ
  effective_inv_mass : ℚ × ℚ
  effective_world_inv_inertia_sqrt : ℚ
  world_com : ℚ × ℚ
  active_set_offset : ℕ
  body_type : RigidBodyType

/-- `SolverBody` (`joint_velocity_constraint.rs`, as constructed in
`joint_constraint.rs`): the per-lane solver view of a rigid body. -/
structure SolverBody (Iso : Type) where
  linvel : ℚ × ℚ
  angvel : ℚ
  im : ℚ × ℚ
  sqrt_ii : ℚ
  world_com : ℚ × ℚ
  mj_lambda : ℕ

/-- The values computed by `AnyJointVelocityConstraint::from_joint_ground`
before it hands off to `lock_axes`: the (possibly swapped) handles, the
selected local frames, the world frames, the two solver bodies and the
`flipped` flag. -/
structure GroundAssembly (Iso : Type) where
  flipped : Bool
  handle1 : ℕ
  handle2 : ℕ
  local_frame1 : Iso
  local_frame2 : Iso
  frame1 : Iso
  frame2 : Iso
  body1 : SolverBody Iso
  body2 : SolverBody Iso

/-- `AnyJointVelocityConstraint::from_joint_ground`
(`src/dynamics/solver/joint_constraint/joint_constraint.rs:240-297`):
handle/frame selection and solver-body construction of the ground path.
`mul` is isometry composition, `bodies` the component store. -/
def fromJointGround {Iso : Type} (mul : Iso → Iso → Iso)
    (joint : ImpulseJoint Iso) (bodies : ℕ → RigidBodyRec Iso) :
    GroundAssembly Iso :=
  let handle1 := joint.body1
  let handle2 := joint.body2
  let status2 := (bodies handle2).body_type
  let flipped := !status2.is_dynamic
  let handles := if flipped then (handle2, handle1) else (handle1, handle2)
  let frames :=
    if flipped then (joint.data.local_frame2, joint.data.local_frame1)
    else (joint.data.local_frame1, joint.data.local_frame2)
  let rb1 := bodies handles.1
  let rb2 := bodies handles.2
  let frame1 := mul rb1.position frames.1
  let frame2 := mul rb2.position frames.2
  let body1 : SolverBody Iso :=
    { linvel := rb1.linvel
      angvel := rb1.angvel
      im := rb1.effective_inv_mass
      sqrt_ii := rb1.effective_world_inv_inertia_sqrt
      world_com := rb1.world_com
      mj_lambda := INVALID_USIZE }
  let body2 : SolverBody Iso :=
    { linvel := rb2.linvel
      angvel := rb2.angvel
      im := rb2.effective_inv_mass
      sqrt_ii := rb2.effective_world_inv_inertia_sqrt
      world_com := rb2.world_com
      mj_lambda := rb2.active_set_offset }
  { flipped := flipped
    handle1 := handles.1
    handle2 := handles.2
    local_frame1 := frames.1
    local_frame2 := frames.2
    frame1 := frame1
    frame2 := frame2
    body1 := body1
    body2 := body2 }

/-- Modelled from the spec (§3, "Constraint (solver-internal)"):
a ground constraint omits storage for the static side, so the emitted
`JointVelocityGroundConstraint` (whose definition lies outside the provided
sources) carries a single delta-velocity slot, that of `body2`. -/
def groundConstraintSlot {Iso : Type} (a : GroundAssembly Iso) : ℕ :=
  a.body2.mj_lambda

/-! ### The multibody side: jacobian buffer and per-DOF unit constraints -/

/-- `IntegrationParameters`, restricted to the fields read by the embedded
functions.  `erp_inv_dt` is the pre-divided error-reduction coefficient
(`params.erp_inv_dt()` — the accessor body lies outside the provided
sources, so the value is carried directly). -/
structure IntegrationParameters where
  dt : ℚ
  erp_inv_dt : ℚ

/-- `WritebackId` (`src/dynamics/solver`): which cached slot receives the
converged impulse. -/
inductive WritebackId where
  | limit (dof : ℕ)
  | motor (dof : ℕ)
deriving DecidableEq, Repr

/-- `JointGenericVelocityGroundConstraint`, with exactly the fields the
source constructs in `unit_multibody_joint.rs:47-58` and `105-116`. -/
structure JointGenericVelocityGroundConstraint where
  mj_lambda2 : ℕ
  ndofs2 : ℕ
  j_id2 : ℕ
  joint_id : ℕ
  impulse : ℚ
  impulse_bounds : ℚ × ℚ
  inv_lhs : ℚ
  rhs : ℚ
  rhs_wo_bias : ℚ
  writeback_id : WritebackId

/-- `MultibodyLink`, restricted to the fields read by the unit-constraint
functions: the column offset of the link into the multibody's generalised
state. -/
structure MultibodyLink where
  assembly_id : ℕ

/-- `Multibody`, restricted to the interface consumed by
`unit_multibody_joint.rs`: total generalised DOF count, the row offset into
the island's generic lambda vector, the per-link generalised velocity
accessor, and the action of solving with the LDLᵀ-factorised
`inv_augmented_mass` (the factorisation itself is nalgebra code outside the
provided sources, so the solve is carried as an abstract linear operation on
`ndofs`-vectors, embedded as functions `ℕ → ℚ`). -/
structure Multibody where
  ndofs : ℕ
  solver_id : ℕ
  joint_velocity : MultibodyLink → ℕ → ℚ
  inv_augmented_mass_solve : (ℕ → ℚ) → (ℕ → ℚ)

/-- The shared dense jacobian vector, embedded as an index-to-value function
together with an explicit row count (`DVector<Real>` is only ever read and
written pointwise by the embedded code). -/
structure Jacobians where
  rows : ℕ → ℚ
  nrows : ℕ

/-- `DVector::rows_mut(start, n).fill(0.0)`: zero the rows `[start, start+n)`. -/
def fillRows (f : ℕ → ℚ) (start n : ℕ) : ℕ → ℚ :=
  fun i => if start ≤ i ∧ i < start + n then 0 else f i

/-- Pointwise update of one row. -/
def setRow (f : ℕ → ℚ) (k : ℕ) (v : ℚ) : ℕ → ℚ :=
  fun i => if i = k then v else f i

/-- The `n`-row view `DVector::rows(start, n)`, extended by zero outside its
range so that it is a total function. -/
def segOf (f : ℕ → ℚ) (start n : ℕ) : ℕ → ℚ :=
  fun k => if k < n then f (start + k) else 0

/-- Write an `n`-row segment back over `[start, start+n)` (the in-place
effect of `solve_mut` on a `rows_mut` view). -/
def writeSeg (f : ℕ → ℚ) (start n : ℕ) (seg : ℕ → ℚ) : ℕ → ℚ :=
  fun i => if start ≤ i ∧ i < start + n then seg (i - start) else f i

/-- The growth step of `AnyJointVelocityConstraint::from_joint` /
`from_joint_ground` (`joint_constraint.rs:110-114` and `315-319`): when the
shared jacobian vector has fewer than
`j_id + multibodies_ndof * 2 * SPATIAL_DIM` rows it is resized (zero-filled)
to exactly that length, otherwise left alone. -/
def ensureJacobianRows (j_id multibodies_ndof nrows : ℕ) : ℕ :=
  let required_jacobian_len := j_id + multibodies_ndof * 2 * SPATIAL_DIM
  if nrows < required_jacobian_len then required_jacobian_len else nrows

/-- The state threaded through the unit-constraint emitters: the running
`j_id` cursor, the shared jacobian buffer, and the list of emitted
constraints. -/
structure UnitJointState where
  j_id : ℕ
  jacobians : Jacobians
  constraints : List JointGenericVelocityGroundConstraint

/-- `unit_joint_limit_constraint`
(`src/dynamics/joint/multibody_joint/unit_multibody_joint.rs:13-64`). -/
def unitJointLimitConstraint (params : IntegrationParameters)
    (multibody : Multibody) (link : MultibodyLink) (limits : ℚ × ℚ)
    (curr_pos : ℚ) (dof_id : ℕ) (st : UnitJointState) : UnitJointState :=
  let ndofs := multibody.ndofs
  let joint_velocity := multibody.joint_velocity link
  let min_enabled := curr_pos < limits.1
  let max_enabled := limits.2 < curr_pos
  let erp_inv_dt := params.erp_inv_dt
  let rhs_bias :=
    (max (curr_pos - limits.2) 0 - max (limits.1 - curr_pos) 0) * erp_inv_dt
  let rhs_wo_bias := joint_velocity dof_id
  let dof_j_id := st.j_id + dof_id + link.assembly_id
  let jac0 := fillRows st.jacobians.rows st.j_id (ndofs * 2)
  let jac1 := setRow jac0 dof_j_id 1
  let jac2 := setRow jac1 (dof_j_id + ndofs) 1
  let solved := multibody.inv_augmented_mass_solve (segOf jac2 (st.j_id + ndofs) ndofs)
  let jac3 := writeSeg jac2 (st.j_id + ndofs) ndofs solved
  let lhs := jac3 (dof_j_id + ndofs)
  let impulse_bounds :=
    ((if min_enabled then (1 : ℚ) else 0) * -RealMAX,
     (if max_enabled then (1 : ℚ) else 0) * RealMAX)
  let constraint : JointGenericVelocityGroundConstraint :=
    { mj_lambda2 := multibody.solver_id
      ndofs2 := ndofs
      j_id2 := st.j_id
      joint_id := INVALID_USIZE
      impulse := 0
      impulse_bounds := impulse_bounds
      inv_lhs := inv lhs
      rhs := rhs_wo_bias + rhs_bias
      rhs_wo_bias := rhs_wo_bias
      writeback_id := WritebackId.limit dof_id }
  { j_id := st.j_id + 2 * ndofs
    jacobians := { rows := jac3, nrows := st.jacobians.nrows }
    constraints := st.constraints ++ [constraint] }

/-- `MotorParams`, the output of `JointMotor::motor_params(dt)` (whose body
lies outside the provided sources); carried directly. -/
structure MotorParams where
  target_pos : ℚ
  target_vel : ℚ
  stiffness : ℚ
  damping : ℚ
  max_impulse : ℚ

/-- `unit_joint_motor_constraint`
(`src/dynamics/joint/multibody_joint/unit_multibody_joint.rs:68-122`);
`motor_params` is the already-computed `motor.motor_params(params.dt)`. -/
def unitJointMotorConstraint (_params : IntegrationParameters)
    (multibody : Multibody) (link : MultibodyLink) (motor_params : MotorParams)
    (curr_pos : ℚ) (dof_id : ℕ) (st : UnitJointState) : UnitJointState :=
  let ndofs := multibody.ndofs
  let joint_velocity := multibody.joint_velocity link
  let dof_j_id := st.j_id + dof_id + link.assembly_id
  let jac0 := fillRows st.jacobians.rows st.j_id (ndofs * 2)
  let jac1 := setRow jac0 dof_j_id 1
  let jac2 := setRow jac1 (dof_j_id + ndofs) 1
  let solved := multibody.inv_augmented_mass_solve (segOf jac2 (st.j_id + ndofs) ndofs)
  let jac3 := writeSeg jac2 (st.j_id + ndofs) ndofs solved
  let lhs := jac3 (dof_j_id + ndofs)
  let impulse_bounds := (-motor_params.max_impulse, motor_params.max_impulse)
  let rhs_wo_bias0 : ℚ := 0
  let rhs_wo_bias1 :=
    if motor_params.stiffness ≠ 0 then
      rhs_wo_bias0 + (curr_pos - motor_params.target_pos) * motor_params.stiffness
    else rhs_wo_bias0
  let rhs_wo_bias :=
    if motor_params.damping ≠ 0 then
      rhs_wo_bias1 + (joint_velocity dof_id - motor_params.target_vel) * motor_params.damping
    else rhs_wo_bias1
  let constraint : JointGenericVelocityGroundConstraint :=
    { mj_lambda2 := multibody.solver_id
      ndofs2 := ndofs
      j_id2 := st.j_id
      joint_id := INVALID_USIZE
      impulse := 0
      impulse_bounds := impulse_bounds
      inv_lhs := inv lhs
      rhs := rhs_wo_bias
      rhs_wo_bias := rhs_wo_bias
      writeback_id := WritebackId.limit dof_id }
  { j_id := st.j_id + 2 * ndofs
    jacobians := { rows := jac3, nrows := st.jacobians.nrows }
    constraints := st.constraints ++ [constraint] }

/-- Modelled from the spec (§4.2 step 6 and §3 `ImpulseJoint`): the
warm-start value a constraint is specified to start from — the impulse
cached on the joint from the previous step, optionally scaled by the dt
ratio (`warmstart_coeff`). -/
def specWarmStartImpulse (cached dt_ratio : ℚ) : ℚ :=
  cached * dt_ratio

/-- The number of jacobian rows the growth step of `from_joint` /
`from_joint_ground` pre-sizes for one joint, counted from the cursor
(`multibodies_ndof * 2 * SPATIAL_DIM`, `joint_constraint.rs:110` / `315`). -/
def presizedRows (multibodies_ndof : ℕ) : ℕ :=
  multibodies_ndof * 2 * SPATIAL_DIM

/-- Modelled from the spec (§4.2–§4.3 and open question (a)): the jacobian
rows actually consumed by the constraints emitted for one joint.  Each
emitted constraint — one per locked axis, one per motorised axis and one per
limited axis — appends `2 * ndofs` rows (`J` then `M⁻¹ Jᵀ`), exactly as the
in-source `unit_joint_limit_constraint` / `unit_joint_motor_constraint`
advance `j_id` by `2 * ndofs` per emission; the emitting driver
(`lock_axes`) is not part of the provided sources. -/
def consumedRows (ndofs locked_count motor_count limit_count : ℕ) : ℕ :=
  (locked_count + motor_count + limit_count) * (2 * ndofs)

/-! ### `concurrent_loop` (`parallel_island_solver.rs:23-63`), sequential model -/

/-- One worker's claim loop, modelled sequentially: `stream` is the current
value of the phase's atomic index stream, and each iteration performs the
`fetch_add(batch_size)`, breaks when the returned start index exceeds
`max_index`, and otherwise records the processed range
`[start_index, min(start_index + batch_size, max_index))`.
The batch size is `bPred + 1`: the source's batch size is the positive
constant `8` (`ThreadContext::new(8)`), and a zero batch size would make the
source loop itself non-terminating. -/
def concurrentLoopGo (max_index bPred : ℕ) (stream : ℕ) : List (ℕ × ℕ) :=
  let batch_size := bPred + 1
  let start_index := stream
  if _h : max_index < start_index then []
  else
    let end_index := min (start_index + batch_size) max_index
    (start_index, end_index) :: concurrentLoopGo max_index bPred (stream + batch_size)
termination_by max_index + 1 - stream
decreasing_by omega

/-- The `concurrent_loop!` macro body for an array of length `len`
(`parallel_island_solver.rs:23-43`): no iteration at all when the array is
empty, the claim loop from stream value `0` otherwise.  Returns the list of
claimed `[start, end)` ranges in claim order. -/
def concurrentLoop (len bPred : ℕ) : List (ℕ × ℕ) :=
  if 0 < len then concurrentLoopGo len bPred 0 else []

/-- The indices processed by a run: each claimed range, flattened. -/
def processedIndices (len bPred : ℕ) : List ℕ :=
  (concurrentLoop len bPred).flatMap (fun p => List.range' p.1 (p.2 - p.1))

/-- The final value of the phase's completed counter: the claim loop
`fetch_add`s `end_index - start_index` after each batch
(`parallel_island_solver.rs:40`). -/
def completedCount (len bPred : ℕ) : ℕ :=
  ((concurrentLoop len bPred).map (fun p => p.2 - p.1)).sum

/-! ### Body force-integration and writeback (`init_and_solve`) -/

/-- `RigidBodyVelocity`, 2-D instantiation (linear `ℚ × ℚ`, angular `ℚ`). -/
structure RigidBodyVelocity where
  linvel : ℚ × ℚ
  angvel : ℚ
deriving DecidableEq, Repr

/-- `RigidBodyDamping`. -/
structure RigidBodyDamping where
  linear_damping : ℚ
  angular_damping : ℚ
deriving DecidableEq, Repr

/-- `DeltaVel`: the per-body `mj_lambdas` entry (solver delta-velocity). -/
structure DeltaVel where
  linear : ℚ × ℚ
  angular : ℚ
deriving DecidableEq, Repr

/-- `RigidBodyPosition`: current and predicted isometries. -/
structure RigidBodyPosition (Iso : Type) where
  position : Iso
  next_position : Iso

/-- The force-integration loop body of `ParallelIslandSolver::init_and_solve`
(`parallel_island_solver.rs:241-252`): the `mj_lambdas` entry accumulates
`sqrt(I⁻¹) · torque · dt` on the angular channel and
`force ∘ inv_mass · dt` componentwise on the linear channel. -/
def forceIntegrationStep (dt : ℚ) (sqrt_ii : ℚ) (effective_inv_mass : ℚ × ℚ)
    (force : ℚ × ℚ) (torque : ℚ) (dvel : DeltaVel) : DeltaVel :=
  { angular := dvel.angular + sqrt_ii * torque * dt
    linear := (dvel.linear.1 + force.1 * effective_inv_mass.1 * dt,
               dvel.linear.2 + force.2 * effective_inv_mass.2 * dt) }

/-- Modelled from the spec (§4.6 step 2): `RigidBodyVelocity::apply_damping`
multiplies each channel by `(1 − dt · damping)`; the method body lies outside
the provided sources. -/
def applyDamping (dt : ℚ) (damping : RigidBodyDamping) (v : RigidBodyVelocity) :
    RigidBodyVelocity :=
  { linvel := (v.linvel.1 * (1 - dt * damping.linear_damping),
               v.linvel.2 * (1 - dt * damping.linear_damping))
    angvel := v.angvel * (1 - dt * damping.angular_damping) }

/-- The writeback/integration loop body of
`ParallelIslandSolver::init_and_solve` (`parallel_island_solver.rs:284-309`):
add the solver delta (angular channel decoded through
`effective_world_inv_inertia_sqrt.transform_vector`), apply damping, then
integrate the damped velocity into `next_position`.  `integrate` stands for
`RigidBodyVelocity::integrate(dt, position, local_com)` (outside the provided
sources); the loop writes back both the new velocity and the new position
record. -/
def bodyWritebackStep {Iso : Type}
    (integrate : ℚ → RigidBodyVelocity → Iso → (ℚ × ℚ) → Iso)
    (dt : ℚ) (rb_pos : RigidBodyPosition Iso) (rb_vels : RigidBodyVelocity)
    (rb_damping : RigidBodyDamping) (sqrt_ii : ℚ) (local_com : ℚ × ℚ)
    (dvels : DeltaVel) : RigidBodyPosition Iso × RigidBodyVelocity :=
  let new_rb_pos := rb_pos
  let new_rb_vels :=
    { linvel := (rb_vels.linvel.1 + dvels.linear.1,
                 rb_vels.linvel.2 + dvels.linear.2)
      angvel := rb_vels.angvel + scalarTransformVector sqrt_ii dvels.angular }
  let new_rb_vels := applyDamping dt rb_damping new_rb_vels
  let new_rb_pos :=
    { new_rb_pos with
        next_position := integrate dt new_rb_vels rb_pos.position local_com }
  (new_rb_pos, new_rb_vels)

/-! ### SIMD-wide joint groups (`from_wide_joint`, `from_wide_joint_ground`) -/

/-- A joint as seen by the SIMD grouper: only its `locked_axes` bitmask
matters for lane compatibility (`data.locked_axes.bits()`). -/
structure WideLaneJoint where
  locked_axes_bits : ℕ
deriving DecidableEq, Repr

/-- The `locked_axes` bitmask `from_wide_joint` / `from_wide_joint_ground`
apply to the whole wide constraint: lane 0's
(`impulse_joints[0].data.locked_axes.bits()`,
`joint_constraint.rs:231` and `454`). -/
def fromWideJointAppliedMask : List WideLaneJoint → ℕ
  | [] => 0
  | j :: _ => j.locked_axes_bits

/-- Modelled from the spec (§4.2 "SIMD batching" and open question (b)): the
interaction grouper, which is not part of the provided sources.  It only
forms a `W`-lane wide group when the next `W` joints all share lane 0's
`locked_axes` bitmask; otherwise the first joint degrades to a scalar
constraint and grouping continues on the rest.  `W = wPred + 1` (the SIMD
width is positive).  Returns (wide groups, scalar leftovers). -/
def groupWideJoints (wPred : ℕ) : List WideLaneJoint →
    List (List WideLaneJoint) × List WideLaneJoint
  | [] => ([], [])
  | j :: rest =>
    let candidate := (j :: rest).take (wPred + 1)
    if candidate.length = wPred + 1 ∧
        candidate.all (fun k => k.locked_axes_bits == j.locked_axes_bits) then
      let tail := groupWideJoints wPred ((j :: rest).drop (wPred + 1))
      (candidate :: tail.1, tail.2)
    else
      let tail := groupWideJoints wPred rest
      (tail.1, j :: tail.2)
termination_by l => l.length
decreasing_by
  · simp only [List.drop_succ_cons, List.length_cons, List.length_drop]
    omega
  · simp

/-! ### `IndexMut2::index_mut2` (`src/utils.rs:761-803`) -/

/-- `IndexMut2::index_mut2` for `Vec<T>` / `[T]`: asserts `i != j`, then
that both indices are in bounds, then reads the two elements.  A panic is
modelled as `none`; the container is read-only in the embedding, matching
the fact that the source hands out references without moving elements. -/
def indexMut2 {α : Type} (v : List α) (i j : ℕ) : Option (α × α) :=
  if i = j then none
  else if h : i < v.length ∧ j < v.length then
    some (v.get ⟨i, h.1⟩, v.get ⟨j, h.2⟩)
  else none

/-! ## Helper lemmas -/

/-- The segment view passed to `inv_augmented_mass().solve_mut` by the unit
constraints: after zeroing `2·ndofs` rows and planting the two `1.0`
entries, the first-half view is the unit row `e_(dof_id+assembly_id)`. -/
theorem unitSeg_eq (rows : ℕ → ℚ) (j_id ndofs dof asm : ℕ)
    (h : dof + asm < ndofs) :
    segOf (setRow (setRow (fillRows rows j_id (ndofs * 2)) (j_id + dof + asm) 1)
        (j_id + dof + asm + ndofs) 1) (j_id + ndofs) ndofs
      = fun k => if k = dof + asm then 1 else 0 := by
  funext k
  simp only [segOf, setRow, fillRows]
  split_ifs <;> first | rfl | omega

/-- `SdpMatrix3::inverse` is a genuine left inverse whenever the determinant
it computes is nonzero. -/
theorem sdp_inverse_correct (a : SdpMatrix3) (h : a.det ≠ 0) :
    m3Mul (SdpMatrix3.toM3 (SdpMatrix3.inverse a)) (SdpMatrix3.toM3 a) = m3One := by
  have hd : a.m11 * (a.m22 * a.m33 - a.m23 * a.m23) -
      a.m12 * (a.m12 * a.m33 - a.m13 * a.m23) +
      a.m13 * (a.m12 * a.m23 - a.m13 * a.m22) ≠ 0 := by
    simpa [SdpMatrix3.det] using h
  simp only [SdpMatrix3.inverse]
  rw [if_neg hd]
  simp only [SdpMatrix3.toM3, m3Mul, m3One, M3.mk.injEq]
  refine ⟨?_, ?_, ?_, ?_, ?_, ?_, ?_, ?_, ?_⟩ <;> field_simp <;> ring

/-! ## Claim theorems -/

/-- C5: when the effective mass is singular it is treated as zero and the
constraint contributes nothing: `inv 0 = 0` and `inv x = 1/x` for `x ≠ 0`;
the SPD 3×3 inverse is the zero matrix when the determinant is zero and the
true matrix inverse otherwise; the per-DOF multibody limit constraint's
`inv_lhs` is `inv` of the `lhs` row it reads back, so `lhs = 0` gives
`inv_lhs = 0`; and a PGS update with zero effective mass leaves any in-bounds
impulse unchanged. -/
theorem C5_singular_effective_mass :
    inv 0 = 0 ∧
    (∀ x : ℚ, x ≠ 0 → inv x = 1 / x) ∧
    (∀ a : SdpMatrix3, a.det = 0 → a.inverse = SdpMatrix3.zero) ∧
    (∀ a : SdpMatrix3, a.det ≠ 0 →
      m3Mul (SdpMatrix3.toM3 (SdpMatrix3.inverse a)) (SdpMatrix3.toM3 a) = m3One) ∧
    (∀ (params : IntegrationParameters) (mb : Multibody) (link : MultibodyLink)
        (limits : ℚ × ℚ) (curr_pos : ℚ) (dof_id : ℕ) (st : UnitJointState),
      ((unitJointLimitConstraint params mb link limits curr_pos dof_id st).constraints.getLast?).map
          (fun c => c.inv_lhs)
        = some (inv
            ((unitJointLimitConstraint params mb link limits curr_pos dof_id st).jacobians.rows
              (st.j_id + dof_id + link.assembly_id + mb.ndofs)))) ∧
    (∀ impulse rhs dvel lo hi : ℚ, lo ≤ impulse → impulse ≤ hi →
      pgsUpdate impulse 0 rhs dvel lo hi = impulse) := by
  refine ⟨by simp [inv], fun x hx => by simp [inv, hx], ?_, sdp_inverse_correct, ?_, ?_⟩
  · intro a h
    have hd : a.m11 * (a.m22 * a.m33 - a.m23 * a.m23) -
        a.m12 * (a.m12 * a.m33 - a.m13 * a.m23) +
        a.m13 * (a.m12 * a.m23 - a.m13 * a.m22) = 0 := by
      simpa [SdpMatrix3.det] using h
    simp [SdpMatrix3.inverse, hd]
  · intro params mb link limits curr_pos dof_id st
    simp [unitJointLimitConstraint, List.getLast?_concat]
  · intro impulse rhs dvel lo hi h1 h2
    simp only [pgsUpdate, zero_mul, add_zero]
    rw [max_eq_left h1, min_eq_left h2]

/-- C5 witness: the theorem applied at concrete inputs, hypotheses
discharged. -/
theorem C5_witness :
    inv 4 = 1 / 4 ∧
    m3Mul (SdpMatrix3.toM3 (SdpMatrix3.inverse ⟨2, 0, 0, 3, 0, 4⟩))
        (SdpMatrix3.toM3 ⟨2, 0, 0, 3, 0, 4⟩) = m3One ∧
    pgsUpdate 1 0 7 9 0 2 = 1 :=
  ⟨C5_singular_effective_mass.2.1 4 (by norm_num),
   C5_singular_effective_mass.2.2.2.1 ⟨2, 0, 0, 3, 0, 4⟩ (by norm_num [SdpMatrix3.det]),
   C5_singular_effective_mass.2.2.2.2.2 1 7 9 0 2 (by norm_num) (by norm_num)⟩

/-- C4: the per-DOF multibody motor constraint has symmetric impulse bounds
`[−max_impulse, +max_impulse]`; the per-DOF limit constraint is one-sided
only when violated — the lower bound is `−Real::MAX` exactly when
`curr_pos < limits[0]` (else `0`), the upper bound `+Real::MAX` exactly when
`limits[1] < curr_pos` (else `0`), so a position inside the limits yields
bounds `[0, 0]`. -/
theorem C4_impulse_bounds
    (params : IntegrationParameters) (mb : Multibody) (link : MultibodyLink)
    (limits : ℚ × ℚ) (mp : MotorParams) (curr_pos : ℚ) (dof_id : ℕ)
    (st : UnitJointState) :
    (((unitJointLimitConstraint params mb link limits curr_pos dof_id st).constraints.getLast?).map
        (fun c => c.impulse_bounds)
      = some ((if curr_pos < limits.1 then -RealMAX else 0),
              (if limits.2 < curr_pos then RealMAX else 0))) ∧
    (limits.1 ≤ curr_pos → curr_pos ≤ limits.2 →
      ((unitJointLimitConstraint params mb link limits curr_pos dof_id st).constraints.getLast?).map
          (fun c => c.impulse_bounds) = some (0, 0)) ∧
    (((unitJointMotorConstraint params mb link mp curr_pos dof_id st).constraints.getLast?).map
        (fun c => c.impulse_bounds)
      = some (-mp.max_impulse, mp.max_impulse)) := by
  refine ⟨?_, ?_, ?_⟩
  · simp only [unitJointLimitConstraint, List.getLast?_concat, Option.map_some]
    split_ifs <;> norm_num
  · intro h1 h2
    simp only [unitJointLimitConstraint, List.getLast?_concat, Option.map_some]
    rw [if_neg (by exact not_lt.2 h1), if_neg (by exact not_lt.2 h2)]
    norm_num
  · simp [unitJointMotorConstraint, List.getLast?_concat]

/-- C4 witness: a current position strictly inside the limits produces the
`[0, 0]` bounds. -/
theorem C4_witness :
    (((unitJointLimitConstraint ⟨1, 1⟩
          ⟨1, 0, fun _ _ => 0, id⟩ ⟨0⟩ (0, 2) 1 0
          ⟨0, ⟨fun _ => 0, 12⟩, []⟩).constraints.getLast?).map
        (fun c => c.impulse_bounds) = some (0, 0)) :=
  (C4_impulse_bounds ⟨1, 1⟩ ⟨1, 0, fun _ _ => 0, id⟩ ⟨0⟩ (0, 2) ⟨0, 0, 0, 0, 5⟩ 1 0
      ⟨0, ⟨fun _ => 0, 12⟩, []⟩).2.1 (by norm_num) (by norm_num)

/-- C10: `index_mut2` panics exactly when `i = j` or an index is out of
bounds; under the precondition it returns the two elements at `i` and `j`
(the container itself is untouched), so the unchecked accesses are always
in-bounds and non-aliased. -/
theorem C10_index_mut2 {α : Type} (v : List α) (i j : ℕ) :
    (indexMut2 v i j = none ↔ i = j ∨ v.length ≤ i ∨ v.length ≤ j) ∧
    (∀ (_hij : i ≠ j) (hi : i < v.length) (hj : j < v.length),
      indexMut2 v i j = some (v.get ⟨i, hi⟩, v.get ⟨j, hj⟩)) := by
  constructor
  · unfold indexMut2
    split_ifs with h1 h2 <;> simp <;> omega
  · intro hij hi hj
    unfold indexMut2
    rw [if_neg hij, dif_pos (And.intro hi hj)]

/-- C10 witness: distinct in-bounds indices on a concrete vector. -/
theorem C10_witness : indexMut2 [10, 20, 30] 0 2 = some (10, 30) :=
  (C10_index_mut2 [10, 20, 30] 0 2).2 (by decide) (by decide) (by decide)

/-- C3 counterexample: a per-DOF multibody limit constraint emitted by
`unit_joint_limit_constraint` has accumulated impulse `0`, not the cached
warm-start impulse (here `5`, unscaled): the emitter does not even receive a
cached impulse. -/
theorem C3_counterexample :
    ((unitJointLimitConstraint ⟨1, 1⟩ ⟨1, 0, fun _ _ => 0, id⟩ ⟨0⟩ (0, 1) 2 0
          ⟨0, ⟨fun _ => 0, 12⟩, []⟩).constraints.getLast?).map (fun c => c.impulse)
        = some 0 ∧
      specWarmStartImpulse 5 1 = 5 ∧ ((0 : ℚ) ≠ 5) := by
  refine ⟨?_, by norm_num [specWarmStartImpulse], by norm_num⟩
  simp [unitJointLimitConstraint, List.getLast?_concat]

/-- Modelled from the spec (§4.2 step 6 and §3 `ImpulseJoint`): the
rigid-body `lock_axes` path (`joint_velocity_constraint.rs`, not among the
provided sources) initialises the constraint emitted for `axis` from the
joint's cached `impulses` entry for that axis, scaled by the warm-start
dt ratio (`warmstart_coeff`). -/
def rigidLockAxesInitialImpulse {Iso : Type} (joint : ImpulseJoint Iso)
    (axis : ℕ) (dt_ratio : ℚ) : ℚ :=
  joint.impulses.getD axis 0 * dt_ratio

/-- C3 amended: rigid-body impulse-joint constraints carry the cached
`ImpulseJoint::impulses` warm start (scaled by the dt ratio), but the
per-DOF multibody limit and motor constraints built by
`unit_joint_limit_constraint` and `unit_joint_motor_constraint` always
initialise their accumulated impulse to zero. -/
theorem C3_amended {Iso : Type}
    (params : IntegrationParameters) (mb : Multibody) (link : MultibodyLink)
    (limits : ℚ × ℚ) (mp : MotorParams) (curr_pos : ℚ) (dof_id : ℕ)
    (st : UnitJointState) (joint : ImpulseJoint Iso) (axis : ℕ) (dt_ratio : ℚ) :
    (rigidLockAxesInitialImpulse joint axis dt_ratio
        = specWarmStartImpulse (joint.impulses.getD axis 0) dt_ratio) ∧
    (((unitJointLimitConstraint params mb link limits curr_pos dof_id st).constraints.getLast?).map
        (fun c => c.impulse) = some 0) ∧
    (((unitJointMotorConstraint params mb link mp curr_pos dof_id st).constraints.getLast?).map
        (fun c => c.impulse) = some 0) := by
  refine ⟨rfl, ?_, ?_⟩
  · simp [unitJointLimitConstraint, List.getLast?_concat]
  · simp [unitJointMotorConstraint, List.getLast?_concat]

/-- C1: on the ground path, when `body2` is the non-dynamic side the two
handles and the two local anchor frames are swapped and `flipped` is set;
the static side's solver body gets the invalid sentinel slot, and the single
delta-velocity slot referenced by the emitted ground constraint is the
dynamic side's. -/
theorem C1_ground_flip {Iso : Type} (mul : Iso → Iso → Iso)
    (joint : ImpulseJoint Iso) (bodies : ℕ → RigidBodyRec Iso)
    (h : ((bodies joint.body2).body_type).is_dynamic = false) :
    (fromJointGround mul joint bodies).flipped = true ∧
    (fromJointGround mul joint bodies).handle1 = joint.body2 ∧
    (fromJointGround mul joint bodies).handle2 = joint.body1 ∧
    (fromJointGround mul joint bodies).local_frame1 = joint.data.local_frame2 ∧
    (fromJointGround mul joint bodies).local_frame2 = joint.data.local_frame1 ∧
    (fromJointGround mul joint bodies).body1.mj_lambda = INVALID_USIZE ∧
    (fromJointGround mul joint bodies).body2.mj_lambda
      = (bodies joint.body1).active_set_offset ∧
    groundConstraintSlot (fromJointGround mul joint bodies)
      = (bodies joint.body1).active_set_offset := by
  simp [fromJointGround, groundConstraintSlot, h]

/-- C1 witness: a concrete static `body2` (handle 1) and dynamic `body1`
(handle 0, active-set offset 7). -/
theorem C1_witness :
    (fromJointGround (fun a b => a + b)
        (⟨0, 1, ⟨100, 200, 0⟩, []⟩ : ImpulseJoint ℕ)
        (fun n => if n = 1 then ⟨5, (0, 0), 0, (0, 0), 0, (0, 0), 3, .Static⟩
                  else ⟨4, (0, 0), 0, (0, 0), 0, (0, 0), 7, .Dynamic⟩)).flipped = true ∧
    (fromJointGround (fun a b => a + b)
        (⟨0, 1, ⟨100, 200, 0⟩, []⟩ : ImpulseJoint ℕ)
        (fun n => if n = 1 then ⟨5, (0, 0), 0, (0, 0), 0, (0, 0), 3, .Static⟩
                  else ⟨4, (0, 0), 0, (0, 0), 0, (0, 0), 7, .Dynamic⟩)).body1.mj_lambda
      = INVALID_USIZE ∧
    (fromJointGround (fun a b => a + b)
        (⟨0, 1, ⟨100, 200, 0⟩, []⟩ : ImpulseJoint ℕ)
        (fun n => if n = 1 then ⟨5, (0, 0), 0, (0, 0), 0, (0, 0), 3, .Static⟩
                  else ⟨4, (0, 0), 0, (0, 0), 0, (0, 0), 7, .Dynamic⟩)).body2.mj_lambda = 7 := by
  have h := C1_ground_flip (fun a b => a + b)
      (⟨0, 1, ⟨100, 200, 0⟩, []⟩ : ImpulseJoint ℕ)
      (fun n => if n = 1 then ⟨5, (0, 0), 0, (0, 0), 0, (0, 0), 3, .Static⟩
                else ⟨4, (0, 0), 0, (0, 0), 0, (0, 0), 7, .Dynamic⟩) (by decide)
  exact ⟨h.1, h.2.2.2.2.2.1, h.2.2.2.2.2.2.1⟩

/-- C7: the writeback/integration step first adds the solver delta (angular
channel transformed by the square root of the world inverse inertia), then
applies damping as multiplication by `(1 − dt · damping)` per channel, in
that order; the damped velocity is what `integrate` receives for
`next_position`, and the body's current `position` field is untouched. -/
theorem C7_writeback_order {Iso : Type}
    (integrate : ℚ → RigidBodyVelocity → Iso → (ℚ × ℚ) → Iso)
    (dt : ℚ) (rb_pos : RigidBodyPosition Iso) (rb_vels : RigidBodyVelocity)
    (rb_damping : RigidBodyDamping) (sqrt_ii : ℚ) (local_com : ℚ × ℚ)
    (dvels : DeltaVel) :
    (bodyWritebackStep integrate dt rb_pos rb_vels rb_damping sqrt_ii local_com dvels).2.angvel
      = (rb_vels.angvel + sqrt_ii * dvels.angular)
          * (1 - dt * rb_damping.angular_damping) ∧
    (bodyWritebackStep integrate dt rb_pos rb_vels rb_damping sqrt_ii local_com dvels).2.linvel
      = ((rb_vels.linvel.1 + dvels.linear.1) * (1 - dt * rb_damping.linear_damping),
         (rb_vels.linvel.2 + dvels.linear.2) * (1 - dt * rb_damping.linear_damping)) ∧
    (bodyWritebackStep integrate dt rb_pos rb_vels rb_damping sqrt_ii local_com dvels).1.position
      = rb_pos.position ∧
    (bodyWritebackStep integrate dt rb_pos rb_vels rb_damping sqrt_ii local_com dvels).1.next_position
      = integrate dt
          (bodyWritebackStep integrate dt rb_pos rb_vels rb_damping sqrt_ii local_com dvels).2
          rb_pos.position local_com := by
  refine ⟨?_, ?_, rfl, rfl⟩ <;>
    (simp only [bodyWritebackStep, applyDamping, scalarTransformVector]; try ring)

/-- C9: `mj_lambdas.angular` stores the angular-velocity delta
pre-multiplied by `sqrt(I⁻¹)`: force integration adds
`sqrt(I⁻¹) · torque · dt` to it, writeback decodes it exactly once through
`transform_vector`, and the net angular-velocity contribution of a torque is
`sqrt(I⁻¹)² · torque · dt = I⁻¹ · torque · dt` (the `squared` of the
factorisation). -/
theorem C9_sqrt_inertia_encoding {Iso : Type}
    (integrate : ℚ → RigidBodyVelocity → Iso → (ℚ × ℚ) → Iso)
    (dt : ℚ) (rb_pos : RigidBodyPosition Iso) (rb_vels : RigidBodyVelocity)
    (sqrt_ii : ℚ) (effective_inv_mass : ℚ × ℚ) (force : ℚ × ℚ) (torque : ℚ)
    (local_com : ℚ × ℚ) (dvel : DeltaVel) :
    (forceIntegrationStep dt sqrt_ii effective_inv_mass force torque dvel).angular
      = dvel.angular + sqrt_ii * torque * dt ∧
    (bodyWritebackStep integrate dt rb_pos rb_vels ⟨0, 0⟩ sqrt_ii local_com
        (forceIntegrationStep dt sqrt_ii effective_inv_mass force torque dvel)).2.angvel
      = rb_vels.angvel + scalarTransformVector sqrt_ii dvel.angular
          + scalarSquared sqrt_ii * torque * dt := by
  constructor
  · rfl
  · simp [bodyWritebackStep, applyDamping, scalarTransformVector, scalarSquared,
      forceIntegrationStep]
    ring

/-- C2 counterexample: with a 1-DOF multibody the growth step pre-sizes
`1 * 2 * SPATIAL_DIM = 12` rows past the cursor, yet a joint emitting five
locked-axis constraints plus a motor and a limit on the same free DOF
consumes `7 * 2 * 1 = 14` rows — the pre-sized length is not sufficient for
all emitted constraints (the source's own TODO at
`joint_constraint.rs:109/314`). -/
theorem C2_counterexample :
    presizedRows 1 = 12 ∧ consumedRows 1 5 1 1 = 14 ∧
      presizedRows 1 < consumedRows 1 5 1 1 := by
  decide

/-- C2 (amended): the assembler grows the shared jacobian vector on demand
to at least `j_id + multibodies_ndof * 2 * SPATIAL_DIM` rows (never
shrinking it); each per-DOF limit or motor constraint writes only rows
`[j_id, j_id + 2·ndofs)` — the first `ndofs` rows are the unit jacobian row
(`1` at `dof_id + assembly_id`, `0` elsewhere), the next `ndofs` rows are
that row solved through `inv_augmented_mass` — and advances `j_id` by
exactly `2·ndofs`; and the pre-sized length is sufficient whenever the
joint emits at most `SPATIAL_DIM` constraints, each consuming `2·ndofs`
rows (with both motors and limits on one DOF it can be exceeded:
see the counterexample). -/
theorem C2_jacobian_buffer :
    (∀ j_id multibodies_ndof nrows : ℕ,
      j_id + multibodies_ndof * 2 * SPATIAL_DIM
          ≤ ensureJacobianRows j_id multibodies_ndof nrows ∧
        nrows ≤ ensureJacobianRows j_id multibodies_ndof nrows) ∧
    (∀ (params : IntegrationParameters) (mb : Multibody) (link : MultibodyLink)
        (limits : ℚ × ℚ) (curr_pos : ℚ) (dof_id : ℕ) (st : UnitJointState),
      dof_id + link.assembly_id < mb.ndofs →
      (unitJointLimitConstraint params mb link limits curr_pos dof_id st).j_id
          = st.j_id + 2 * mb.ndofs ∧
        (∀ i, i < st.j_id ∨ st.j_id + 2 * mb.ndofs ≤ i →
          (unitJointLimitConstraint params mb link limits curr_pos dof_id st).jacobians.rows i
            = st.jacobians.rows i) ∧
        (∀ d, d < mb.ndofs →
          (unitJointLimitConstraint params mb link limits curr_pos dof_id st).jacobians.rows
              (st.j_id + d)
            = if d = dof_id + link.assembly_id then 1 else 0) ∧
        (∀ d, d < mb.ndofs →
          (unitJointLimitConstraint params mb link limits curr_pos dof_id st).jacobians.rows
              (st.j_id + mb.ndofs + d)
            = mb.inv_augmented_mass_solve
                (fun k => if k = dof_id + link.assembly_id then 1 else 0) d)) ∧
    (∀ (params : IntegrationParameters) (mb : Multibody) (link : MultibodyLink)
        (mp : MotorParams) (curr_pos : ℚ) (dof_id : ℕ) (st : UnitJointState),
      dof_id + link.assembly_id < mb.ndofs →
      (unitJointMotorConstraint params mb link mp curr_pos dof_id st).j_id
          = st.j_id + 2 * mb.ndofs ∧
        (∀ i, i < st.j_id ∨ st.j_id + 2 * mb.ndofs ≤ i →
          (unitJointMotorConstraint params mb link mp curr_pos dof_id st).jacobians.rows i
            = st.jacobians.rows i) ∧
        (∀ d, d < mb.ndofs →
          (unitJointMotorConstraint params mb link mp curr_pos dof_id st).jacobians.rows
              (st.j_id + d)
            = if d = dof_id + link.assembly_id then 1 else 0) ∧
        (∀ d, d < mb.ndofs →
          (unitJointMotorConstraint params mb link mp curr_pos dof_id st).jacobians.rows
              (st.j_id + mb.ndofs + d)
            = mb.inv_augmented_mass_solve
                (fun k => if k = dof_id + link.assembly_id then 1 else 0) d)) ∧
    (∀ ndofs locked_count motor_count limit_count : ℕ,
      locked_count + motor_count + limit_count ≤ SPATIAL_DIM →
      consumedRows ndofs locked_count motor_count limit_count ≤ presizedRows ndofs) := by
  refine ⟨?_, ?_, ?_, ?_⟩
  · intro j_id multibodies_ndof nrows
    simp only [ensureJacobianRows]
    split_ifs <;> omega
  · intro params mb link limits curr_pos dof_id st h
    have hseg := unitSeg_eq st.jacobians.rows st.j_id mb.ndofs dof_id link.assembly_id h
    refine ⟨rfl, ?_, ?_, ?_⟩
    · intro i hi
      simp only [unitJointLimitConstraint, writeSeg, setRow, fillRows]
      split_ifs <;> first | rfl | omega
    · intro d hd
      simp only [unitJointLimitConstraint, writeSeg, setRow, fillRows]
      split_ifs <;> first | rfl | omega
    · intro d hd
      simp only [unitJointLimitConstraint, writeSeg]
      rw [if_pos (⟨by omega, by omega⟩ :
        st.j_id + mb.ndofs ≤ st.j_id + mb.ndofs + d ∧
          st.j_id + mb.ndofs + d < st.j_id + mb.ndofs + mb.ndofs)]
      rw [hseg]
      congr 1
      omega
  · intro params mb link mp curr_pos dof_id st h
    have hseg := unitSeg_eq st.jacobians.rows st.j_id mb.ndofs dof_id link.assembly_id h
    refine ⟨rfl, ?_, ?_, ?_⟩
    · intro i hi
      simp only [unitJointMotorConstraint, writeSeg, setRow, fillRows]
      split_ifs <;> first | rfl | omega
    · intro d hd
      simp only [unitJointMotorConstraint, writeSeg, setRow, fillRows]
      split_ifs <;> first | rfl | omega
    · intro d hd
      simp only [unitJointMotorConstraint, writeSeg]
      rw [if_pos (⟨by omega, by omega⟩ :
        st.j_id + mb.ndofs ≤ st.j_id + mb.ndofs + d ∧
          st.j_id + mb.ndofs + d < st.j_id + mb.ndofs + mb.ndofs)]
      rw [hseg]
      congr 1
      omega
  · intro ndofs locked_count motor_count limit_count hc
    unfold SPATIAL_DIM at hc
    unfold consumedRows presizedRows SPATIAL_DIM
    nlinarith

/-- The claim loop, started at stream value `s ≤ len`, processes exactly the
indices `[s, len)` in order, adds `len - s` to the completed counter in
total, and never claims a batch whose start index exceeds `len`. -/
theorem concurrentLoopGo_spec (len b : ℕ) :
    ∀ n s, len - s = n → s ≤ len →
      ((concurrentLoopGo len b s).flatMap (fun p => List.range' p.1 (p.2 - p.1))
          = List.range' s (len - s)) ∧
      (((concurrentLoopGo len b s).map (fun p => p.2 - p.1)).sum = len - s) ∧
      (∀ p ∈ concurrentLoopGo len b s, p.1 ≤ len) := by
  intro n
  induction n using Nat.strong_induction_on with
  | _ n IH =>
    intro s hn hs
    rw [concurrentLoopGo]
    rw [dif_neg (by omega : ¬ len < s)]
    by_cases hnext : s + (b + 1) ≤ len
    · obtain ⟨ih1, ih2, ih3⟩ :=
        IH (len - (s + (b + 1))) (by omega) (s + (b + 1)) rfl hnext
      have hmin : min (s + (b + 1)) len = s + (b + 1) := by omega
      refine ⟨?_, ?_, ?_⟩
      · simp only [List.flatMap_cons, ih1, hmin]
        have : List.range' s (s + (b + 1) - s) ++ List.range' (s + (b + 1)) (len - (s + (b + 1)))
            = List.range' s (len - (s + (b + 1)) + (s + (b + 1) - s)) := by
          have := List.range'_append_1 s (s + (b + 1) - s) (len - (s + (b + 1)))
          rw [show s + (s + (b + 1) - s) = s + (b + 1) by omega] at this
          exact this
        rw [this]
        congr 1
        omega
      · simp only [List.map_cons, List.sum_cons, ih2]
        omega
      · intro p hp
        rcases List.mem_cons.1 hp with h | h
        · rw [h]; omega
        · exact ih3 p h
    · have hempty : concurrentLoopGo len b (s + (b + 1)) = [] := by
        rw [concurrentLoopGo]
        rw [dif_pos (by omega : len < s + (b + 1))]
      have hmin : min (s + (b + 1)) len = len := by omega
      refine ⟨?_, ?_, ?_⟩
      · simp only [hempty, List.flatMap_cons, List.flatMap_nil, List.append_nil, hmin]
      · simp only [hempty, List.map_cons, List.sum_cons, List.map_nil, List.sum_nil, hmin]
        omega
      · intro p hp
        simp only [hempty] at hp
        rcases List.mem_cons.1 hp with h | h
        · rw [h]; omega
        · simp at h

/-- C6 counterexample: with `len = 2` and batch size `2`, the worker does
not stop at the claim whose start index equals `len`: the run claims the
batch `(2, 2)` (an empty range) before stopping, because the source breaks
only on `start_index > max_index`. -/
theorem C6_counterexample : concurrentLoop 2 1 = [(0, 2), (2, 2)] := by
  rw [concurrentLoop, if_pos (by omega : (0 : ℕ) < 2)]
  rw [concurrentLoopGo, dif_neg (by omega : ¬ (2 : ℕ) < 0)]
  rw [concurrentLoopGo, dif_neg (by omega : ¬ (2 : ℕ) < 0 + (1 + 1))]
  rw [concurrentLoopGo, dif_pos (by omega : (2 : ℕ) < 0 + (1 + 1) + (1 + 1))]
  norm_num

/-- C6 (amended): a worker stops claiming exactly when the fetch-add
returns a start index strictly greater than `len` (a claim at `start = len`
still happens and processes the empty range `[len, len)`); modelled
sequentially the loop terminates, processes every index `< len` exactly
once — the concatenated claimed ranges are exactly `range len` — and the
completed counter ends at `len`, with every claimed start index `≤ len`. -/
theorem C6_batch_claiming (len bPred : ℕ) :
    processedIndices len bPred = List.range len ∧
    completedCount len bPred = len ∧
    (∀ p ∈ concurrentLoop len bPred, p.1 ≤ len) := by
  unfold processedIndices completedCount concurrentLoop
  by_cases h : 0 < len
  · rw [if_pos h]
    obtain ⟨h1, h2, h3⟩ := concurrentLoopGo_spec len bPred (len - 0) 0 rfl (by omega)
    refine ⟨?_, ?_, ?_⟩
    · rw [h1, List.range_eq_range']
      simp
    · rw [h2]
      omega
    · intro p hp
      exact h3 p hp
  · rw [if_neg h]
    have hlen : len = 0 := by omega
    subst hlen
    refine ⟨rfl, rfl, ?_⟩
    intro p hp
    simp at hp

/-- C6 witness: the spec applied at `len = 3`, batch size `2`; the first
claimed batch starts at `0 ≤ 3`. -/
theorem C6_witness :
    processedIndices 3 1 = List.range 3 ∧ completedCount 3 1 = 3 ∧ (0, 2).1 ≤ 3 := by
  obtain ⟨h1, h2, h3⟩ := C6_batch_claiming 3 1
  refine ⟨h1, h2, h3 (0, 2) ?_⟩
  rw [concurrentLoop, if_pos (by omega : (0 : ℕ) < 3)]
  rw [concurrentLoopGo, dif_neg (by omega : ¬ (3 : ℕ) < 0)]
  exact List.mem_cons_self _ _

/-- Every wide group formed by the (spec-modelled) grouper is homogeneous —
each lane's `locked_axes` equals the mask `from_wide_joint` applies (lane
0's) — and wide groups plus scalar leftovers are a permutation of the input
joints (heterogeneous lanes degrade to scalar, none are dropped). -/
theorem groupWideJoints_spec (wPred : ℕ) :
    ∀ n (js : List WideLaneJoint), js.length = n →
      (∀ g ∈ (groupWideJoints wPred js).1, ∀ jt ∈ g,
        jt.locked_axes_bits = fromWideJointAppliedMask g) ∧
      ((groupWideJoints wPred js).1.flatMap id ++ (groupWideJoints wPred js).2).Perm js := by
  intro n
  induction n using Nat.strong_induction_on with
  | _ n IH =>
    intro js hlen
    match js with
    | [] =>
      simp only [groupWideJoints]
      constructor
      · intro g hg
        simp at hg
      · simp
    | j :: rest =>
      simp only [groupWideJoints]
      by_cases hcond : ((j :: rest).take (wPred + 1)).length = wPred + 1 ∧
          ((j :: rest).take (wPred + 1)).all
            (fun k => k.locked_axes_bits == j.locked_axes_bits) = true
      · rw [if_pos hcond]
        have hdroplen : ((j :: rest).drop (wPred + 1)).length < n := by
          rw [← hlen]
          simp only [List.length_drop, List.length_cons]
          omega
        obtain ⟨ihmask, ihperm⟩ := IH _ hdroplen ((j :: rest).drop (wPred + 1)) rfl
        constructor
        · intro g hg jt hjt
          rcases List.mem_cons.1 hg with hgc | hgt
          · subst hgc
            have hall := (List.all_eq_true.1 hcond.2) jt hjt
            have heq : jt.locked_axes_bits = j.locked_axes_bits := by
              simpa using hall
            rw [heq]
            have hhead : (j :: rest).take (wPred + 1) = j :: rest.take wPred :=
              List.take_succ_cons
            rw [hhead]
            rfl
          · exact ihmask g hgt jt hjt
        · simp only [List.flatMap_cons]
          rw [List.append_assoc]
          have h2 := List.Perm.append_left ((j :: rest).take (wPred + 1)) ihperm
          rw [List.take_append_drop] at h2
          exact h2
      · rw [if_neg hcond]
        have hrl : rest.length < n := by
          rw [← hlen]
          simp only [List.length_cons]
          omega
        obtain ⟨ihmask, ihperm⟩ := IH _ hrl rest rfl
        constructor
        · intro g hg jt hjt
          exact ihmask g hg jt hjt
        · exact List.Perm.trans List.perm_middle (List.Perm.cons j ihperm)

/-- C8: every SIMD-wide group the (spec-modelled) grouper passes to
`from_wide_joint` / `from_wide_joint_ground` is homogeneous: the
`locked_axes` bitmask applied to the wide constraint — lane 0's — equals
every lane's own bitmask; joints that do not fit a homogeneous group degrade
to scalar constraints (wide lanes plus scalars permute the input). -/
theorem C8_simd_locked_axes (wPred : ℕ) (js : List WideLaneJoint) :
    (∀ g ∈ (groupWideJoints wPred js).1, ∀ jt ∈ g,
      jt.locked_axes_bits = fromWideJointAppliedMask g) ∧
    ((groupWideJoints wPred js).1.flatMap id ++ (groupWideJoints wPred js).2).Perm js :=
  groupWideJoints_spec wPred js.length js rfl

/-- C2 witness: a 1-DOF multibody at cursor `0`: the limit and motor
emitters both advance the cursor to `2`, and six emitted constraints fit the
pre-sized budget. -/
theorem C2_witness :
    (unitJointLimitConstraint ⟨1, 1⟩ ⟨1, 0, fun _ _ => 0, id⟩ ⟨0⟩ (0, 1) 2 0
        ⟨0, ⟨fun _ => 0, 12⟩, []⟩).j_id = 0 + 2 * 1 ∧
    (unitJointMotorConstraint ⟨1, 1⟩ ⟨1, 0, fun _ _ => 0, id⟩ ⟨0⟩ ⟨0, 0, 0, 0, 5⟩ 2 0
        ⟨0, ⟨fun _ => 0, 12⟩, []⟩).j_id = 0 + 2 * 1 ∧
    consumedRows 1 5 1 0 ≤ presizedRows 1 :=
  ⟨(C2_jacobian_buffer.2.1 ⟨1, 1⟩ ⟨1, 0, fun _ _ => 0, id⟩ ⟨0⟩ (0, 1) 2 0
      ⟨0, ⟨fun _ => 0, 12⟩, []⟩ (by decide)).1,
   (C2_jacobian_buffer.2.2.1 ⟨1, 1⟩ ⟨1, 0, fun _ _ => 0, id⟩ ⟨0⟩ ⟨0, 0, 0, 0, 5⟩ 2 0
      ⟨0, ⟨fun _ => 0, 12⟩, []⟩ (by decide)).1,
   C2_jacobian_buffer.2.2.2 1 5 1 0 (by decide)⟩

/-- C8 witness: a homogeneous pair of lanes with mask `3` groups wide, and
each lane's mask equals the applied (lane-0) mask. -/
theorem C8_witness :
    (⟨3⟩ : WideLaneJoint).locked_axes_bits
      = fromWideJointAppliedMask [⟨3⟩, ⟨3⟩] := by
  have h := (C8_simd_locked_axes 1 [⟨3⟩, ⟨3⟩, ⟨5⟩]).1 [⟨3⟩, ⟨3⟩] ?_ ⟨3⟩ ?_
  · exact h
  · simp [groupWideJoints]
  · norm_num
